import Mathlib

/-!
Verification development for the CryptArb cross-exchange arbitrage engine
(`app/arb/fast_loop.py`, `app/arb/fx_rates.py`).

The Python code is shallowly embedded: every monetary quantity is modelled as
an exact rational (`ℚ`), dictionaries become structures whose fields keep the
dictionary keys' names, and the mode-dependent branches relevant to the claims
(paper-mode float accounting, live-mode parallel execution, the tick ring
buffer, the FX failover chain, the cooldown gate and the consecutive-error
counter of the orchestrator) become pure functions.  Time is modelled as a
rational number of seconds.  Database persistence and logging are effect-free
in the embedding: a persisted record is simply the value the function returns.
-/

namespace CryptArb

/-- Direction of a hedged trade.  The Python code represents directions as the
strings `"luno_to_binance"` and `"binance_to_luno"`; the error marker of
`calculate_spread` carries `"unknown"`.  Python code branches with
`if direction == "luno_to_binance": ... else: ...`, which the embedding mirrors
with `if d = Direction.lunoToBinance then ... else ...`, so `unknown` falls in
the `else` branch exactly as any non-`"luno_to_binance"` string does. -/
inductive Direction where
  | lunoToBinance
  | binanceToLuno
  | unknown
deriving DecidableEq

/-- Top-of-book quote of one venue, mirroring `PriceData` from
`app/arb/exchanges/base.py` (fields `bid`, `ask`, `last`). -/
structure PriceData where
  bid : ℚ
  ask : ℚ
  last : ℚ
deriving DecidableEq

/-- Scalar configuration read through `get_setting` in `fast_loop.py`:
`SLIPPAGE_BPS_BUFFER`, `LUNO_TRADING_FEE`, `BINANCE_TRADING_FEE`,
`MIN_NET_EDGE_BPS`, `KEEPALIVE_THRESHOLD_BPS`, `MAX_TRADE_ZAR`,
`MAX_TRADE_SIZE_BTC`, `MIN_TRADE_SIZE_BTC` and the four safety buffers
`MIN_REMAINING_ZAR_LUNO`, `MIN_REMAINING_BTC_LUNO`,
`MIN_REMAINING_BTC_BINANCE`, `MIN_REMAINING_USDT_BINANCE`
(`get_safety_buffers`). -/
structure Cfg where
  slippageBps : ℚ
  lunoFee : ℚ
  binanceFee : ℚ
  minNetEdgeBps : ℚ
  keepaliveBps : ℚ
  maxTradeZar : ℚ
  maxTradeBtc : ℚ
  minTradeBtc : ℚ
  bufLunoZar : ℚ
  bufLunoBtc : ℚ
  bufBinanceBtc : ℚ
  bufBinanceUsdt : ℚ
deriving DecidableEq

/-- Result dictionary of `FastArbitrageLoop._calculate_single_direction`
(fast_loop.py lines 94-127). -/
structure DirResult where
  direction : Direction
  spreadPercent : ℚ
  grossEdgeBps : ℚ
  netEdgeBps : ℚ
  buyExchange : String
  sellExchange : String
  buyPrice : ℚ
  sellPrice : ℚ
  isProfitable : Bool
deriving DecidableEq

/-- Embedding of `_calculate_single_direction`.  `slippageFactor` is
`slippage_bps / 10000`, computed by the caller as in the source.  The guard
`if buy_price > 0 else 0` of the Python source is kept. -/
def calcSingleDirection (d : Direction) (luno binance : PriceData)
    (usdtZar slippageFactor : ℚ) (cfg : Cfg) : DirResult :=
  let totalFeeBps := (cfg.lunoFee + cfg.binanceFee) * 10000
  let buyPrice := if d = Direction.lunoToBinance
    then luno.ask * (1 + slippageFactor) else binance.ask * (1 + slippageFactor)
  let sellPrice := if d = Direction.lunoToBinance
    then binance.bid * (1 - slippageFactor) else luno.bid * (1 - slippageFactor)
  let grossSpread :=
    if d = Direction.lunoToBinance then
      if 0 < buyPrice then (sellPrice - buyPrice / usdtZar) / (buyPrice / usdtZar) else 0
    else
      if 0 < buyPrice then (sellPrice / usdtZar - buyPrice) / buyPrice else 0
  let grossEdgeBps := grossSpread * 10000
  let netEdgeBps := grossEdgeBps - totalFeeBps
  { direction := d
    spreadPercent := grossSpread * 100
    grossEdgeBps := grossEdgeBps
    netEdgeBps := netEdgeBps
    buyExchange := if d = Direction.lunoToBinance then "luno" else "binance"
    sellExchange := if d = Direction.lunoToBinance then "binance" else "luno"
    buyPrice := buyPrice
    sellPrice := sellPrice
    isProfitable := decide (cfg.minNetEdgeBps ≤ netEdgeBps) }

/-- Result dictionary of `FastArbitrageLoop.calculate_spread`
(fast_loop.py lines 129-202).  The `error` flag models the presence of the
`"error"` key; `both = none` models `both_directions = None` of the error
marker; in the error marker the remaining numeric fields are the zeros the
Python dict carries (keys absent from the error dict are zero here as well,
which no claim inspects). -/
structure SpreadResult where
  direction : Direction
  spreadPercent : ℚ
  grossEdgeBps : ℚ
  netEdgeBps : ℚ
  isProfitable : Bool
  error : Bool
  buyExchange : String
  sellExchange : String
  buyPrice : ℚ
  sellPrice : ℚ
  lunoZar : ℚ
  binanceUsdt : ℚ
  usdtZar : ℚ
  lunoBid : ℚ
  lunoAsk : ℚ
  binanceBid : ℚ
  binanceAsk : ℚ
  both : Option (DirResult × DirResult)
deriving DecidableEq

/-- Embedding of `calculate_spread`.  `usdtZar` stands for the awaited
`fx_service.get_usdt_zar_rate()` value (always positive in reachable states).
The pair in `both` is `(luno_to_binance, binance_to_luno)`. -/
def calculateSpread (luno binance : PriceData) (usdtZar : ℚ) (cfg : Cfg) :
    SpreadResult :=
  if luno.last = 0 ∨ binance.last = 0 then
    { direction := Direction.unknown
      spreadPercent := 0, grossEdgeBps := 0, netEdgeBps := 0
      isProfitable := false, error := true
      buyExchange := "", sellExchange := "", buyPrice := 0, sellPrice := 0
      lunoZar := 0, binanceUsdt := 0, usdtZar := usdtZar
      lunoBid := 0, lunoAsk := 0, binanceBid := 0, binanceAsk := 0
      both := none }
  else
    let slippageFactor := cfg.slippageBps / 10000
    let l2b := calcSingleDirection Direction.lunoToBinance luno binance usdtZar slippageFactor cfg
    let b2l := calcSingleDirection Direction.binanceToLuno luno binance usdtZar slippageFactor cfg
    let best := if b2l.netEdgeBps ≤ l2b.netEdgeBps then l2b else b2l
    { direction := best.direction
      spreadPercent := best.spreadPercent
      grossEdgeBps := best.grossEdgeBps
      netEdgeBps := best.netEdgeBps
      isProfitable := best.isProfitable
      error := false
      buyExchange := best.buyExchange
      sellExchange := best.sellExchange
      buyPrice := best.buyPrice
      sellPrice := best.sellPrice
      lunoZar := luno.last
      binanceUsdt := binance.last
      usdtZar := usdtZar
      lunoBid := luno.bid, lunoAsk := luno.ask
      binanceBid := binance.bid, binanceAsk := binance.ask
      both := some (l2b, b2l) }

/-- C6: when either venue's `last` price equals zero, `calculate_spread`
returns the error marker (`error` key present, `is_profitable` false),
whatever the other inputs are (fast_loop.py lines 137-148). -/
theorem c6_zero_price_error (luno binance : PriceData) (usdtZar : ℚ) (cfg : Cfg)
    (h : luno.last = 0 ∨ binance.last = 0) :
    (calculateSpread luno binance usdtZar cfg).error = true ∧
    (calculateSpread luno binance usdtZar cfg).isProfitable = false := by
  unfold calculateSpread
  rw [if_pos h]
  exact ⟨rfl, rfl⟩

/-- Witness for C6 at a concrete input: Luno quote with `last = 0`. -/
theorem c6_zero_price_error_witness :
    (calculateSpread ⟨1, 1, 0⟩ ⟨2, 2, 2⟩ 17 ⟨10, 1/1000, 1/1000, 40, -20, 5000, 1/100, 1/10000, 0, 0, 0, 0⟩).error = true ∧
    (calculateSpread ⟨1, 1, 0⟩ ⟨2, 2, 2⟩ 17 ⟨10, 1/1000, 1/1000, 40, -20, 5000, 1/100, 1/10000, 0, 0, 0, 0⟩).isProfitable = false :=
  c6_zero_price_error ⟨1, 1, 0⟩ ⟨2, 2, 2⟩ 17 _ (Or.inl rfl)

/-- Outcome classes of one call to `FastArbitrageLoop.run_iteration`
(fast_loop.py lines 892-986), split at the reset point
`self.consecutive_errors = 0` on line 921:

* `pricesMissingNotReady`: a price is absent and the price service is not
  ready; the function returns with the counter untouched (lines 898-900);
* `pricesMissingReady`: a price is absent while the service is ready;
  the counter is incremented (lines 901-902);
* `spreadError`: `calculate_spread` returned the error marker; the counter is
  incremented (lines 910-912);
* `excBeforeReset`: an exception escapes before line 921 (price fetch, spread
  computation, tick buffering, float initialisation); the `except` handler
  increments the counter (lines 984-986);
* `excAfterReset`: an exception escapes after line 921 (heartbeat logging,
  trade selection, sizing, execution, opportunity logging); the handler
  increments the counter, which the reset just set to zero;
* `success`: the iteration completes; the counter was reset to zero on
  line 921 and stays zero. -/
inductive IterOutcome where
  | pricesMissingNotReady
  | pricesMissingReady
  | spreadError
  | excBeforeReset
  | excAfterReset
  | success
deriving DecidableEq

/-- Value of `consecutive_errors` after one `run_iteration` call that started
with the counter at `errors`, per outcome class. -/
def iterConsecutiveErrors (errors : ℕ) : IterOutcome → ℕ
  | IterOutcome.pricesMissingNotReady => errors
  | IterOutcome.pricesMissingReady => errors + 1
  | IterOutcome.spreadError => errors + 1
  | IterOutcome.excBeforeReset => errors + 1
  | IterOutcome.excAfterReset => 0 + 1
  | IterOutcome.success => 0

/-- C10: the counter is reset to zero before trade selection and execution
run, so (1) an exception raised during selection or execution leaves
`consecutive_errors` at exactly 1, (2) a completed iteration leaves it at 0,
and (3) the counter can grow to 2 or beyond — and hence ever reach
`ERROR_STOP_COUNT ≥ 2`, the loop-stop test of `_loop_inner` lines 1042-1045 —
only through an iteration that failed before the reset point: missing prices
while the service is ready, an error-marker spread result, or an exception
before line 921. -/
theorem c10_error_counter :
    (∀ errors : ℕ, iterConsecutiveErrors errors IterOutcome.excAfterReset = 1) ∧
    (∀ errors : ℕ, iterConsecutiveErrors errors IterOutcome.success = 0) ∧
    (∀ (errors : ℕ) (o : IterOutcome),
      2 ≤ iterConsecutiveErrors errors o →
      errors < iterConsecutiveErrors errors o →
      o = IterOutcome.pricesMissingReady ∨ o = IterOutcome.spreadError ∨
        o = IterOutcome.excBeforeReset) := by
  refine ⟨fun _ => rfl, fun _ => rfl, fun errors o h2 hgrow => ?_⟩
  cases o with
  | pricesMissingNotReady => exact absurd hgrow (lt_irrefl errors)
  | pricesMissingReady => exact Or.inl rfl
  | spreadError => exact Or.inr (Or.inl rfl)
  | excBeforeReset => exact Or.inr (Or.inr rfl)
  | excAfterReset => exact absurd h2 (by norm_num [iterConsecutiveErrors])
  | success => exact absurd h2 (by norm_num [iterConsecutiveErrors])

/-- Witness for C10: an error-marker spread with the counter at 1 raises it to
2, which is a growth step occurring before the reset point. -/
theorem c10_error_counter_witness :
    IterOutcome.spreadError = IterOutcome.pricesMissingReady ∨
    IterOutcome.spreadError = IterOutcome.spreadError ∨
    IterOutcome.spreadError = IterOutcome.excBeforeReset :=
  c10_error_counter.2.2 1 IterOutcome.spreadError (by decide) (by decide)

/-- Paper-mode synthetic float balances, the four numeric entries of
`self._paper_floats` (fast_loop.py lines 76-85).  The bookkeeping entries
(`last_direction`, accumulated profits, trade count) play no part in any
claim and are omitted. -/
structure Floats where
  lunoZar : ℚ
  lunoBtc : ℚ
  binanceBtc : ℚ
  binanceUsdt : ℚ
deriving DecidableEq

/-- Embedding of `initialize_paper_floats` (lines 407-419): Luno gets
`MAX_TRADE_ZAR`, Binance gets the BTC equivalent at the first Luno price. -/
def initPaperFloats (maxTradeZar lunoZarPrice : ℚ) : Floats :=
  { lunoZar := maxTradeZar
    lunoBtc := 0
    binanceBtc := if 0 < lunoZarPrice then maxTradeZar / lunoZarPrice else 0
    binanceUsdt := 0 }

/-- Embedding of `get_tradeable_amounts` in paper mode (lines 429-447):
each balance minus its safety buffer, floored at zero. -/
def tradeableAmounts (f : Floats) (cfg : Cfg) : Floats :=
  { lunoZar := max 0 (f.lunoZar - cfg.bufLunoZar)
    lunoBtc := max 0 (f.lunoBtc - cfg.bufLunoBtc)
    binanceBtc := max 0 (f.binanceBtc - cfg.bufBinanceBtc)
    binanceUsdt := max 0 (f.binanceUsdt - cfg.bufBinanceUsdt) }

/-- Embedding of `can_execute_paper_trade` (lines 449-462): a direction is
executable iff both of its legs' tradeable amounts are strictly positive. -/
def canExecutePaperTrade (d : Direction) (f : Floats) (cfg : Cfg) : Bool :=
  let tr := tradeableAmounts f cfg
  if d = Direction.lunoToBinance then
    decide (0 < tr.binanceBtc) && decide (0 < tr.lunoZar)
  else
    decide (0 < tr.lunoBtc) && decide (0 < tr.binanceUsdt)

/-- Projection of the `spread_info` dictionary onto the keys that
`calculate_trade_size` and `execute_hedged_trade_parallel` read.  Field names
keep the dictionary keys: `lunoZar` is the Luno last price in ZAR,
`binanceUsdt` the Binance last price in USDT, `usdtZar` the FX rate. -/
structure SpreadInfo where
  direction : Direction
  spreadPercent : ℚ
  grossEdgeBps : ℚ
  netEdgeBps : ℚ
  buyExchange : String
  sellExchange : String
  buyPrice : ℚ
  sellPrice : ℚ
  lunoZar : ℚ
  binanceUsdt : ℚ
  usdtZar : ℚ
deriving DecidableEq

/-- Embedding of `_build_direction_spread_info` (lines 553-575): the
per-direction spread dictionary handed to sizing and execution by
`select_trade_direction`. -/
def buildDirectionSpreadInfo (base : SpreadResult) (d : Direction)
    (data : DirResult) : SpreadInfo :=
  { direction := d
    spreadPercent := data.grossEdgeBps / 100
    grossEdgeBps := data.grossEdgeBps
    netEdgeBps := data.netEdgeBps
    buyExchange := if d = Direction.lunoToBinance then "luno" else "binance"
    sellExchange := if d = Direction.lunoToBinance then "binance" else "luno"
    buyPrice := data.buyPrice
    sellPrice := data.sellPrice
    lunoZar := base.lunoZar
    binanceUsdt := base.binanceUsdt
    usdtZar := base.usdtZar }

/-- Candidate trade size of `calculate_trade_size` in paper mode
(lines 699-714): `min(MAX_TRADE_ZAR / price, MAX_TRADE_SIZE_BTC)` clamped by
the direction's two tradeable amounts.  The redundant inner guards
`if luno_zar_price > 0 else 0` and `if binance_usdt > 0 else 0` of the source
are kept verbatim. -/
def rawTradeBtc (si : SpreadInfo) (d : Direction) (f : Floats) (cfg : Cfg) : ℚ :=
  let btc0 := min (cfg.maxTradeZar / si.lunoZar) cfg.maxTradeBtc
  let tr := tradeableAmounts f cfg
  if d = Direction.lunoToBinance then
    min (min btc0 tr.binanceBtc) (if 0 < si.lunoZar then tr.lunoZar / si.lunoZar else 0)
  else
    min (min btc0 tr.lunoBtc) (if 0 < si.binanceUsdt then tr.binanceUsdt / si.binanceUsdt else 0)

/-- Embedding of `calculate_trade_size` in paper mode (lines 688-721).
Returns `(btc_amount, trade_size_zar)`: zero on a non-positive Luno price or a
candidate below `MIN_TRADE_SIZE_BTC`, otherwise the candidate and its ZAR
notional at the Luno last price. -/
def calculateTradeSize (si : SpreadInfo) (d : Direction) (f : Floats)
    (cfg : Cfg) : ℚ × ℚ :=
  if si.lunoZar ≤ 0 then (0, 0)
  else if rawTradeBtc si d f cfg < cfg.minTradeBtc then (0, 0)
  else (rawTradeBtc si d f cfg, rawTradeBtc si d f cfg * si.lunoZar)

/-- Row of the `Trade` table as populated by
`execute_hedged_trade_parallel` (lines 766-777 and 824-835). -/
structure TradeRec where
  direction : Direction
  btcAmount : ℚ
  buyPrice : ℚ
  sellPrice : ℚ
  spreadPercent : ℚ
  profitUsd : ℚ
  profitZar : ℚ
  buyExchange : String
  sellExchange : String
  status : String
deriving DecidableEq

/-- Float mutation block of the paper branch of
`execute_hedged_trade_parallel` (lines 745-754), for trade size `btc` BTC and
`zar` ZAR. -/
def paperNewFloats (si : SpreadInfo) (cfg : Cfg) (f : Floats) (btc zar : ℚ) :
    Floats :=
  if si.direction = Direction.lunoToBinance then
    { lunoZar := f.lunoZar - zar
      lunoBtc := f.lunoBtc + btc * (1 - cfg.lunoFee)
      binanceBtc := f.binanceBtc - btc
      binanceUsdt := f.binanceUsdt + btc * si.binanceUsdt * (1 - cfg.binanceFee) }
  else
    { lunoZar := f.lunoZar + zar * (1 - cfg.lunoFee)
      lunoBtc := f.lunoBtc - btc
      binanceBtc := f.binanceBtc + btc * (1 - cfg.binanceFee)
      binanceUsdt := f.binanceUsdt - btc * si.binanceUsdt }

/-- Paper branch of `execute_hedged_trade_parallel` (lines 728-789):
re-check executability, re-compute size, compute the claimed profit from
`net_edge_bps`, mutate the floats, and return the persisted `Trade` row with
`status = "paper"` together with the new floats.  `none` models the
`return None` paths, which leave the floats untouched. -/
def executePaper (si : SpreadInfo) (f : Floats) (cfg : Cfg) :
    Option (TradeRec × Floats) :=
  if canExecutePaperTrade si.direction f cfg then
    let r := calculateTradeSize si si.direction f cfg
    if r.1 ≤ 0 then none
    else
      let profitZar := r.2 * (si.netEdgeBps / 10000)
      some ({ direction := si.direction
              btcAmount := r.1
              buyPrice := si.buyPrice
              sellPrice := si.sellPrice
              spreadPercent := si.spreadPercent
              profitUsd := profitZar / si.usdtZar
              profitZar := profitZar
              buyExchange := si.buyExchange
              sellExchange := si.sellExchange
              status := "paper" },
            paperNewFloats si cfg f r.1 r.2)
  else none

/-- Total portfolio value of the floats, marking BTC on both venues at the
Luno last price `aLast` and USDT at `usdtZar`, exactly as claim C1 words it. -/
def totalValue (f : Floats) (aLast usdtZar : ℚ) : ℚ :=
  f.lunoZar + f.lunoBtc * aLast + f.binanceUsdt * usdtZar + f.binanceBtc * aLast

/-- Exact mark-to-market value change implied by the paper balance mutations:
for A→B the portfolio loses `(1 + feeA)·A.last` and gains
`(1 − feeB)·B.price·usdt_zar` per BTC traded; the mirror direction is the
`else` branch.  This is what the post-trade value actually differs by, in
place of the recorded `profit_zar`. -/
def paperValueDelta (si : SpreadInfo) (cfg : Cfg) (btc : ℚ) : ℚ :=
  if si.direction = Direction.lunoToBinance then
    btc * ((1 - cfg.binanceFee) * si.binanceUsdt * si.usdtZar - (1 + cfg.lunoFee) * si.lunoZar)
  else
    btc * ((1 - cfg.lunoFee - cfg.binanceFee) * si.lunoZar - si.binanceUsdt * si.usdtZar)

/-- Structural lemma: the ZAR notional returned by `calculate_trade_size` is
always the BTC amount times the Luno last price. -/
lemma calculateTradeSize_snd (si : SpreadInfo) (d : Direction) (f : Floats)
    (cfg : Cfg) :
    (calculateTradeSize si d f cfg).2 =
      (calculateTradeSize si d f cfg).1 * si.lunoZar := by
  unfold calculateTradeSize
  split
  · simp
  · split
    · simp
    · rfl

/-- Structural lemma: what a successful paper execution implies — the
direction was executable, the size was strictly positive, and the returned
trade row and floats are built from `calculate_trade_size`'s output. -/
lemma executePaper_eq_some {si : SpreadInfo} {f : Floats} {cfg : Cfg}
    {p : TradeRec × Floats} (h : executePaper si f cfg = some p) :
    canExecutePaperTrade si.direction f cfg = true ∧
    0 < (calculateTradeSize si si.direction f cfg).1 ∧
    p.1.btcAmount = (calculateTradeSize si si.direction f cfg).1 ∧
    p.2 = paperNewFloats si cfg f (calculateTradeSize si si.direction f cfg).1
            (calculateTradeSize si si.direction f cfg).2 := by
  unfold executePaper at h
  cases hcan : canExecutePaperTrade si.direction f cfg with
  | false => rw [hcan] at h; simp at h
  | true =>
    rw [hcan] at h
    simp only [if_true] at h
    by_cases hle : (calculateTradeSize si si.direction f cfg).1 ≤ 0
    · rw [if_pos hle] at h; simp at h
    · rw [if_neg hle] at h
      have hp := Option.some.inj h
      exact ⟨rfl, lt_of_not_le hle, by rw [← hp], by rw [← hp]⟩

/-- Computation lemma: the post-trade value of the paper floats differs from
the pre-trade value by exactly `paperValueDelta`, for a notional consistent
with the traded BTC amount. -/
lemma paperNewFloats_value (si : SpreadInfo) (cfg : Cfg) (f : Floats) (btc : ℚ) :
    totalValue (paperNewFloats si cfg f btc (btc * si.lunoZar)) si.lunoZar si.usdtZar =
      totalValue f si.lunoZar si.usdtZar + paperValueDelta si cfg btc := by
  unfold totalValue paperNewFloats paperValueDelta
  by_cases hd : si.direction = Direction.lunoToBinance <;> simp [hd] <;> ring

/-- C1 (amended): for every paper trade, the post-trade total portfolio value
(ZAR + BTC·A.last + USDT·usdt_zar + A-BTC·A.last) equals the pre-trade total
value plus the exact mark-to-market change `paperValueDelta` of the balance
mutations — not, in general, plus the recorded `profit_zar`, which is
computed from `net_edge_bps` over slippage-adjusted bid/ask prices while the
balances move at last prices. -/
theorem c1_value_identity (si : SpreadInfo) (f : Floats) (cfg : Cfg)
    (tr : TradeRec) (f' : Floats)
    (h : executePaper si f cfg = some (tr, f')) :
    totalValue f' si.lunoZar si.usdtZar =
      totalValue f si.lunoZar si.usdtZar + paperValueDelta si cfg tr.btcAmount := by
  obtain ⟨-, -, hbtc, hf'⟩ := executePaper_eq_some h
  have hb2 : tr.btcAmount = (calculateTradeSize si si.direction f cfg).1 := hbtc
  have hf2 : f' = paperNewFloats si cfg f (calculateTradeSize si si.direction f cfg).1
      (calculateTradeSize si si.direction f cfg).2 := hf'
  rw [hb2, hf2, calculateTradeSize_snd]
  exact paperNewFloats_value si cfg f _

/-- Concrete scenario refuting C1 as stated.  Market: Luno bid=ask=last
R1,000,000, Binance bid=ask=last 60,000 USDT, usdt_zar 17; config: zero
slippage, zero Luno fee, 10 bps Binance fee, `MAX_TRADE_ZAR` 5000,
`MAX_TRADE_SIZE_BTC` 0.01, `MIN_TRADE_SIZE_BTC` 0.0001, zero buffers. -/
def c1Cfg : Cfg := ⟨0, 0, 1/1000, 40, -20, 5000, 1/100, 1/10000, 0, 0, 0, 0⟩

/-- Luno quote for the C1 scenario. -/
def c1Luno : PriceData := ⟨1000000, 1000000, 1000000⟩

/-- Binance quote for the C1 scenario. -/
def c1Binance : PriceData := ⟨60000, 60000, 60000⟩

/-- The `calculate_spread` output for the C1 scenario. -/
def c1Spread : SpreadResult := calculateSpread c1Luno c1Binance 17 c1Cfg

/-- The A→B direction dict for the C1 scenario (net edge 190 bps,
profitable). -/
def c1L2b : DirResult :=
  calcSingleDirection Direction.lunoToBinance c1Luno c1Binance 17
    (c1Cfg.slippageBps / 10000) c1Cfg

/-- The per-direction spread dict handed to execution for the C1 scenario. -/
def c1Si : SpreadInfo := buildDirectionSpreadInfo c1Spread Direction.lunoToBinance c1L2b

/-- Freshly initialised paper floats for the C1 scenario:
R5000 on Luno, 0.005 BTC on Binance. -/
def c1F0 : Floats := initPaperFloats c1Cfg.maxTradeZar c1Luno.last

/-- C1 counterexample: the scenario's paper trade executes (status `"paper"`,
0.005 BTC, recorded `profit_zar = 95`), yet the post-trade total value
10,094.90 differs from pre-trade value plus `profit_zar` (10,095.00) by
R0.10 > R0.01.  The A→B direction here is also the best direction, so the
trade is exactly one the loop would execute. -/
def c1Trade : TradeRec :=
  { direction := Direction.lunoToBinance, btcAmount := 1/200,
    buyPrice := 1000000, sellPrice := 60000, spreadPercent := 2,
    profitUsd := 95/17, profitZar := 95,
    buyExchange := "luno", sellExchange := "binance", status := "paper" }

/-- Post-trade floats of the C1 scenario. -/
def c1F1 : Floats := ⟨0, 1/200, 0, 2997/10⟩

theorem c1_counterexample :
    executePaper c1Si c1F0 c1Cfg = some (c1Trade, c1F1) ∧
    c1Spread.both = some (c1L2b, calcSingleDirection Direction.binanceToLuno
      c1Luno c1Binance 17 (c1Cfg.slippageBps / 10000) c1Cfg) ∧
    c1Cfg.minNetEdgeBps ≤ c1L2b.netEdgeBps ∧
    ¬ |totalValue c1F1 c1Si.lunoZar c1Si.usdtZar -
        (totalValue c1F0 c1Si.lunoZar c1Si.usdtZar + c1Trade.profitZar)| ≤ 1/100 := by
  refine ⟨?_, ?_, ?_, ?_⟩ <;>
    norm_num [executePaper, canExecutePaperTrade, tradeableAmounts, calculateTradeSize,
      rawTradeBtc, paperNewFloats, totalValue, c1Trade, c1F1, c1Si, c1Spread, c1L2b,
      c1Cfg, c1F0, c1Luno, c1Binance, initPaperFloats, buildDirectionSpreadInfo,
      calcSingleDirection, calculateSpread, abs]

/-- Witness for the amended C1 theorem at the same concrete scenario. -/
theorem c1_value_identity_witness :
    totalValue c1F1 c1Si.lunoZar c1Si.usdtZar =
      totalValue c1F0 c1Si.lunoZar c1Si.usdtZar +
        paperValueDelta c1Si c1Cfg c1Trade.btcAmount :=
  c1_value_identity c1Si c1F0 c1Cfg c1Trade c1F1
    (by norm_num [executePaper, canExecutePaperTrade, tradeableAmounts, calculateTradeSize,
      rawTradeBtc, paperNewFloats, c1Trade, c1F1, c1Si, c1Spread, c1L2b, c1Cfg, c1F0,
      c1Luno, c1Binance, initPaperFloats, buildDirectionSpreadInfo, calcSingleDirection,
      calculateSpread])

/-- Arithmetic helper: taking `a` with `0 < a ≤ max 0 (x − b)` and `0 ≤ b`
leaves `x − a` non-negative (in fact at least `b`). -/
lemma nonneg_after_take {a x b : ℚ} (ha : 0 < a) (hb : 0 ≤ b)
    (h : a ≤ max 0 (x - b)) : 0 ≤ x - a := by
  rcases le_total (x - b) 0 with hxb | hxb
  · rw [max_eq_left hxb] at h; linarith
  · rw [max_eq_right hxb] at h; linarith

/-- Bound lemma: in the A→B direction the candidate size is at most the
tradeable Binance BTC, and its ZAR notional at most the tradeable Luno ZAR. -/
lemma rawTradeBtc_bounds_l2b (si : SpreadInfo) (f : Floats) (cfg : Cfg)
    (hz : 0 < si.lunoZar) :
    rawTradeBtc si Direction.lunoToBinance f cfg ≤ (tradeableAmounts f cfg).binanceBtc ∧
    rawTradeBtc si Direction.lunoToBinance f cfg * si.lunoZar ≤ (tradeableAmounts f cfg).lunoZar := by
  unfold rawTradeBtc
  simp only [if_pos hz, reduceIte]
  constructor
  · exact le_trans (min_le_left _ _) (min_le_right _ _)
  · have h1 : min (min (min (cfg.maxTradeZar / si.lunoZar) cfg.maxTradeBtc)
        (tradeableAmounts f cfg).binanceBtc) ((tradeableAmounts f cfg).lunoZar / si.lunoZar) ≤
        (tradeableAmounts f cfg).lunoZar / si.lunoZar := min_le_right _ _
    exact (le_div_iff₀ hz).mp h1

/-- Bound lemma: in the mirror direction the candidate size is at most the
tradeable Luno BTC, and (when positive) its USDT notional at most the
tradeable Binance USDT. -/
lemma rawTradeBtc_bounds_other (si : SpreadInfo) (d : Direction) (f : Floats)
    (cfg : Cfg) (hd : ¬ d = Direction.lunoToBinance)
    (hpos : 0 < rawTradeBtc si d f cfg) :
    rawTradeBtc si d f cfg ≤ (tradeableAmounts f cfg).lunoBtc ∧
    rawTradeBtc si d f cfg * si.binanceUsdt ≤ (tradeableAmounts f cfg).binanceUsdt := by
  unfold rawTradeBtc at *
  simp only [if_neg hd] at *
  refine ⟨le_trans (min_le_left _ _) (min_le_right _ _), ?_⟩
  by_cases hp : 0 < si.binanceUsdt
  · rw [if_pos hp] at *
    exact (le_div_iff₀ hp).mp (min_le_right _ _)
  · rw [if_neg hp] at hpos
    exact absurd (min_le_right _ _) (not_le.mpr hpos)

/-- Lemma: a strictly positive size from `calculate_trade_size` means the
Luno price was positive and the size is the raw clamped candidate. -/
lemma calculateTradeSize_pos {si : SpreadInfo} {d : Direction} {f : Floats}
    {cfg : Cfg} (h : 0 < (calculateTradeSize si d f cfg).1) :
    0 < si.lunoZar ∧
    (calculateTradeSize si d f cfg).1 = rawTradeBtc si d f cfg := by
  unfold calculateTradeSize at *
  by_cases h0 : si.lunoZar ≤ 0
  · rw [if_pos h0] at h; exact absurd h (lt_irrefl 0)
  · rw [if_neg h0] at h ⊢
    by_cases hmin : rawTradeBtc si d f cfg < cfg.minTradeBtc
    · rw [if_pos hmin] at h; exact absurd h (lt_irrefl 0)
    · rw [if_neg hmin]; exact ⟨lt_of_not_le h0, rfl⟩

/-- C2 (amended): a paper trade that executes leaves all four float balances
non-negative — provided, beyond the claim's stated preconditions (balances
from initialisation, safety buffers ≥ 0), that both trading fee rates lie in
`[0, 1]` and the spread's Binance price field is non-negative.  The converse
half of the claim is structural here: the `none` paths of `executePaper`
return before the mutation block, so a non-executed trade changes no float. -/
theorem c2_balances_nonneg (si : SpreadInfo) (f : Floats) (cfg : Cfg)
    (hlz : 0 ≤ f.lunoZar) (hlb : 0 ≤ f.lunoBtc)
    (hbb : 0 ≤ f.binanceBtc) (hbu : 0 ≤ f.binanceUsdt)
    (hb2 : 0 ≤ cfg.bufLunoBtc) (hb1 : 0 ≤ cfg.bufLunoZar)
    (hb3 : 0 ≤ cfg.bufBinanceBtc) (hb4 : 0 ≤ cfg.bufBinanceUsdt)
    (hlf : cfg.lunoFee ≤ 1) (hbf : cfg.binanceFee ≤ 1)
    (hp : 0 ≤ si.binanceUsdt)
    (tr : TradeRec) (f' : Floats)
    (h : executePaper si f cfg = some (tr, f')) :
    0 ≤ f'.lunoZar ∧ 0 ≤ f'.lunoBtc ∧ 0 ≤ f'.binanceBtc ∧ 0 ≤ f'.binanceUsdt := by
  obtain ⟨-, hpos, -, hf'⟩ := executePaper_eq_some h
  obtain ⟨hz, hraw⟩ := calculateTradeSize_pos hpos
  have hf2 : f' = paperNewFloats si cfg f (calculateTradeSize si si.direction f cfg).1
      (calculateTradeSize si si.direction f cfg).2 := hf'
  rw [hf2, calculateTradeSize_snd, hraw]
  have hposr : 0 < rawTradeBtc si si.direction f cfg := hraw ▸ hpos
  unfold paperNewFloats
  by_cases hd : si.direction = Direction.lunoToBinance
  · rw [hd] at hposr ⊢
    rw [if_pos rfl]
    obtain ⟨hle1, hle2⟩ := rawTradeBtc_bounds_l2b si f cfg hz
    have hfee1 : (0:ℚ) ≤ 1 - cfg.lunoFee := by linarith
    have hfee2 : (0:ℚ) ≤ 1 - cfg.binanceFee := by linarith
    exact ⟨nonneg_after_take (mul_pos hposr hz) hb1 hle2,
      add_nonneg hlb (mul_nonneg hposr.le hfee1),
      nonneg_after_take hposr hb3 hle1,
      add_nonneg hbu (mul_nonneg (mul_nonneg hposr.le hp) hfee2)⟩
  · rw [if_neg hd]
    obtain ⟨hle1, hle2⟩ := rawTradeBtc_bounds_other si si.direction f cfg hd hposr
    have hfee1 : (0:ℚ) ≤ 1 - cfg.lunoFee := by linarith
    have hfee2 : (0:ℚ) ≤ 1 - cfg.binanceFee := by linarith
    have h4 : 0 ≤ f.binanceUsdt - rawTradeBtc si si.direction f cfg * si.binanceUsdt := by
      rcases le_or_lt (rawTradeBtc si si.direction f cfg * si.binanceUsdt) 0 with hle | hlt
      · linarith
      · exact nonneg_after_take hlt hb4 hle2
    exact ⟨add_nonneg hlz (mul_nonneg (mul_nonneg hposr.le hz.le) hfee1),
      nonneg_after_take hposr hb2 hle1,
      add_nonneg hbb (mul_nonneg hposr.le hfee2), h4⟩

/-- Config refuting C2 as stated: Luno fee rate 2 (200 %), zero Binance fee,
zero buffers, `MAX_TRADE_ZAR` 1000, `MAX_TRADE_SIZE_BTC` 1,
`MIN_TRADE_SIZE_BTC` 0.0001.  The claim's stated preconditions (initialised
floats, buffers ≥ 0) hold, but nothing in `execute_hedged_trade_parallel`
bounds the fee rate. -/
def c2Cfg : Cfg := ⟨0, 2, 0, 40, -20, 1000, 1, 1/10000, 0, 0, 0, 0⟩

/-- Spread dict for the C2 counterexample: A→B, Luno last R1000, Binance last
60 USDT, usdt_zar 17, net edge 100 bps. -/
def c2Si : SpreadInfo :=
  ⟨Direction.lunoToBinance, 1, 100, 100, "luno", "binance", 1000, 60, 1000, 60, 17⟩

/-- Trade row produced in the C2 counterexample. -/
def c2Trade : TradeRec :=
  ⟨Direction.lunoToBinance, 1, 1000, 60, 1, 10/17, 10, "luno", "binance", "paper"⟩

/-- Post-trade floats of the C2 counterexample: the Luno BTC float is −1. -/
def c2F1 : Floats := ⟨0, -1, 0, 60⟩

/-- C2 counterexample: with a fee rate above 1 the trade executes (the
executability check looks only at the two source legs) and drives the Luno
BTC float negative, refuting the claim under its stated preconditions alone.
The floats are exactly `initialize_paper_floats(1000)` at price R1000 and all
safety buffers are 0. -/
theorem c2_counterexample :
    executePaper c2Si (initPaperFloats 1000 1000) c2Cfg = some (c2Trade, c2F1) ∧
    c2F1.lunoBtc < 0 ∧
    (0:ℚ) ≤ c2Cfg.bufLunoZar ∧ (0:ℚ) ≤ c2Cfg.bufLunoBtc ∧
    (0:ℚ) ≤ c2Cfg.bufBinanceBtc ∧ (0:ℚ) ≤ c2Cfg.bufBinanceUsdt := by
  refine ⟨?_, by norm_num [c2F1], by norm_num [c2Cfg], by norm_num [c2Cfg],
    by norm_num [c2Cfg], by norm_num [c2Cfg]⟩
  norm_num [executePaper, canExecutePaperTrade, tradeableAmounts, calculateTradeSize,
    rawTradeBtc, paperNewFloats, initPaperFloats, c2Si, c2Cfg, c2Trade, c2F1]

/-- Sane-fee config for the C2 witness (both fees zero, buffers zero). -/
def c2WCfg : Cfg := ⟨0, 0, 0, 40, -20, 1000, 1, 1/10000, 0, 0, 0, 0⟩

/-- Trade row of the C2 witness scenario. -/
def c2WTrade : TradeRec :=
  ⟨Direction.lunoToBinance, 1, 1000, 60, 1, 10/17, 10, "luno", "binance", "paper"⟩

/-- Post-trade floats of the C2 witness scenario. -/
def c2WF1 : Floats := ⟨0, 1, 0, 60⟩

/-- Witness for the amended C2 theorem at a concrete in-precondition input. -/
theorem c2_balances_nonneg_witness :
    0 ≤ c2WF1.lunoZar ∧ 0 ≤ c2WF1.lunoBtc ∧
    0 ≤ c2WF1.binanceBtc ∧ 0 ≤ c2WF1.binanceUsdt :=
  c2_balances_nonneg c2Si (initPaperFloats 1000 1000) c2WCfg
    (by norm_num [initPaperFloats]) (by norm_num [initPaperFloats])
    (by norm_num [initPaperFloats]) (by norm_num [initPaperFloats])
    (by norm_num [c2WCfg]) (by norm_num [c2WCfg])
    (by norm_num [c2WCfg]) (by norm_num [c2WCfg])
    (by norm_num [c2WCfg]) (by norm_num [c2WCfg])
    (by norm_num [c2Si]) c2WTrade c2WF1
    (by norm_num [executePaper, canExecutePaperTrade, tradeableAmounts, calculateTradeSize,
      rawTradeBtc, paperNewFloats, initPaperFloats, c2Si, c2WCfg, c2WTrade, c2WF1])

/-- Trade type tag returned by `select_trade_direction`
(the `trade_type` key: `"profitable"` or `"keepalive"`). -/
inductive TradeType where
  | profitable
  | keepalive
deriving DecidableEq

/-- Embedding of the paper-mode body of `select_trade_direction`
(fast_loop.py lines 495-551), given the two per-direction net edges of
`spread_info["both_directions"]` and the current floats.  The source checks
the A→B branch first, unconditionally; the returned per-direction spread dict
is not modelled, only the chosen direction and trade type. -/
def selectTradeDirection (l2bEdge b2lEdge : ℚ) (f : Floats) (cfg : Cfg) :
    Option (Direction × TradeType) :=
  let l2bP := decide (cfg.minNetEdgeBps ≤ l2bEdge)
  let b2lP := decide (cfg.minNetEdgeBps ≤ b2lEdge)
  let l2bK := decide (cfg.keepaliveBps ≤ l2bEdge)
  let b2lK := decide (cfg.keepaliveBps ≤ b2lEdge)
  let canL2b := canExecutePaperTrade Direction.lunoToBinance f cfg
  let canB2l := canExecutePaperTrade Direction.binanceToLuno f cfg
  if l2bP && canL2b then some (Direction.lunoToBinance, TradeType.profitable)
  else if b2lP && canB2l then some (Direction.binanceToLuno, TradeType.profitable)
  else if l2bP && !canL2b && b2lK && canB2l then
    some (Direction.binanceToLuno, TradeType.keepalive)
  else if b2lP && !canB2l && l2bK && canL2b then
    some (Direction.lunoToBinance, TradeType.keepalive)
  else none

/-- Best direction as `calculate_spread` picks it (line 159: A→B wins ties). -/
def bestDirection (l2bEdge b2lEdge : ℚ) : Direction :=
  if b2lEdge ≤ l2bEdge then Direction.lunoToBinance else Direction.binanceToLuno

/-- Config for the C4 failing input: `MIN_NET_EDGE_BPS` 40, keepalive −20,
zero buffers. -/
def c4Cfg : Cfg := ⟨10, 1/1000, 1/1000, 40, -20, 5000, 1/100, 1/10000, 0, 0, 0, 0⟩

/-- C4 failing input: with both directions profitable (edges 50 and 60 bps
against a 40 bps threshold) and both executable (floats
`⟨1000, 1, 1, 1000⟩`, zero buffers), the selector returns A→B although the
best direction is B→A — the docstring of `select_trade_direction` promises
"If best direction is profitable AND tradeable → execute it", but the
implementation tests the A→B branch first unconditionally (lines 521-526). -/
theorem c4_best_direction_bug :
    selectTradeDirection 50 60 ⟨1000, 1, 1, 1000⟩ c4Cfg =
      some (Direction.lunoToBinance, TradeType.profitable) ∧
    bestDirection 50 60 = Direction.binanceToLuno ∧
    c4Cfg.minNetEdgeBps ≤ 50 ∧ c4Cfg.minNetEdgeBps ≤ 60 ∧
    canExecutePaperTrade Direction.lunoToBinance ⟨1000, 1, 1, 1000⟩ c4Cfg = true ∧
    canExecutePaperTrade Direction.binanceToLuno ⟨1000, 1, 1, 1000⟩ c4Cfg = true := by
  refine ⟨?_, ?_, ?_, ?_, ?_, ?_⟩ <;>
    norm_num [selectTradeDirection, bestDirection, canExecutePaperTrade,
      tradeableAmounts, c4Cfg]

/-- Inputs of one `run_iteration` call that reached trade selection:
`t` is the iteration's wall-clock reading (`datetime.utcnow()`, in seconds),
`decision` whether `select_trade_direction` returned a trade decision, and
`execOk` whether `execute_hedged_trade_parallel` returned a trade. -/
structure IterEvent where
  t : ℚ
  decision : Bool
  execOk : Bool
deriving DecidableEq

/-- The hard-coded `self._min_trade_interval = 2.0` of `__init__`. -/
def minTradeInterval : ℚ := 2

/-- Cooldown gate of `run_iteration` (lines 952-955): with a previous trade
time `lt` on record, the decision is dropped when `t − lt` is below the
minimum interval. -/
def gateOpen (last : Option ℚ) (e : IterEvent) : Bool :=
  match last with
  | some lt => !decide (e.t - lt < minTradeInterval)
  | none => true

/-- One iteration's effect on `_last_trade_time` (lines 941-974): a decision
that passes the gate and whose execution returns a trade sets the record to
the iteration time; every other outcome leaves it unchanged.  The second
component is the executed trade's time, if a trade was executed. -/
def cooldownStep (last : Option ℚ) (e : IterEvent) : Option ℚ × Option ℚ :=
  if e.decision && gateOpen last e && e.execOk then (some e.t, some e.t)
  else (last, none)

/-- Times of the trades executed over a run of iterations, starting from a
given `_last_trade_time`. -/
def tradeTimesAux (last : Option ℚ) : List IterEvent → List ℚ
  | [] => []
  | e :: es =>
    if e.decision && gateOpen last e && e.execOk then
      e.t :: tradeTimesAux (some e.t) es
    else tradeTimesAux last es

/-- Times of the trades executed over a run of iterations from a fresh loop
(`_last_trade_time = None`). -/
def tradeTimes (es : List IterEvent) : List ℚ := tradeTimesAux none es

/-- Trace lemma: successive executed trades are at least the minimum interval
apart, and when a previous trade time is on record, the first executed trade
comes at least the interval after it. -/
lemma tradeTimesAux_chain (es : List IterEvent) :
    ∀ last : Option ℚ,
      List.Chain' (fun a b => a + minTradeInterval ≤ b) (tradeTimesAux last es) ∧
      (∀ lt : ℚ, last = some lt →
        ∀ y ∈ (tradeTimesAux last es).head?, lt + minTradeInterval ≤ y) := by
  induction es with
  | nil =>
    intro last
    refine ⟨List.chain'_nil, fun lt _ y hy => ?_⟩
    simp [tradeTimesAux] at hy
  | cons e es ih =>
    intro last
    by_cases hx : (e.decision && gateOpen last e && e.execOk) = true
    · rw [tradeTimesAux, if_pos hx]
      obtain ⟨ihc, ihh⟩ := ih (some e.t)
      have hhead : ∀ y ∈ (tradeTimesAux (some e.t) es).head?, e.t + minTradeInterval ≤ y :=
        ihh e.t rfl
      refine ⟨List.chain'_cons'.mpr ⟨hhead, ihc⟩, fun lt hlt y hy => ?_⟩
      rw [List.head?_cons, Option.mem_some_iff] at hy
      subst hy
      have hgate : gateOpen last e = true := by
        rcases Bool.and_eq_true_iff.mp hx with ⟨h1, -⟩
        exact (Bool.and_eq_true_iff.mp h1).2
      rw [hlt] at hgate
      unfold gateOpen at hgate
      rw [Bool.not_eq_true', decide_eq_false_iff_not, not_lt] at hgate
      linarith [hgate]
    · rw [tradeTimesAux, if_neg hx]
      exact ⟨(ih last).1, fun lt hlt => (ih last).2 lt hlt⟩

/-- C5: the cooldown gate.  First conjunct: a trade decision arriving within
`MIN_TRADE_INTERVAL` of the previously executed trade is dropped — no
execution is attempted, no trade time is recorded (and hence no trade row is
persisted).  Second conjunct: over any run of the loop, every two executed
trades are at least `MIN_TRADE_INTERVAL` (2 s) apart. -/
theorem c5_cooldown_enforced :
    (∀ (last : Option ℚ) (e : IterEvent) (lt : ℚ),
      last = some lt → e.t - lt < minTradeInterval →
      cooldownStep last e = (last, none)) ∧
    (∀ es : List IterEvent,
      List.Pairwise (fun a b => a + minTradeInterval ≤ b) (tradeTimes es)) := by
  constructor
  · intro last e lt hlt hclose
    unfold cooldownStep
    rw [if_neg]
    rw [hlt]
    unfold gateOpen
    simp only [Bool.and_eq_true, Bool.not_eq_true', decide_eq_false_iff_not, not_lt]
    intro hcon
    exact absurd hcon.1.2 (not_le.mpr hclose)
  · intro es
    haveI : IsTrans ℚ (fun a b => a + minTradeInterval ≤ b) := by
      refine ⟨fun a b c h1 h2 => ?_⟩
      simp only at h1 h2 ⊢
      have hnn : (0:ℚ) ≤ minTradeInterval := by norm_num [minTradeInterval]
      linarith
    exact List.chain'_iff_pairwise.mp (tradeTimesAux_chain es none).1

/-- Witness for C5: a decision 1 s after a recorded trade (interval 2 s) is
dropped with the trade-time record unchanged. -/
theorem c5_cooldown_witness :
    cooldownStep (some 0) ⟨1, true, true⟩ = (some 0, none) :=
  c5_cooldown_enforced.1 (some 0) ⟨1, true, true⟩ 0 rfl
    (by norm_num [minTradeInterval])

/-- Python's `round(x, 1)` numerator: `10 x` rounded to the nearest integer,
halves to even (banker's rounding, the semantics of Python's built-in
`round`). -/
def roundHalfEven (y : ℚ) : ℤ :=
  let fl := ⌊y⌋
  let r := y - fl
  if r < 1/2 then fl
  else if 1/2 < r then fl + 1
  else if fl % 2 = 0 then fl else fl + 1

/-- Python's `round(x, 1)` on exact rationals. -/
def round1 (x : ℚ) : ℚ := (roundHalfEven (10 * x) : ℚ) / 10

/-- State of the tick pipeline: the ring buffer `deque(maxlen=6)` and the
stream of ticks handed to the persistence queue, in FIFO order.  A tick is
represented by its `net_edge_bps` value, the only field the ring logic
inspects; the bounded queue (capacity 100) is modelled as the unbounded list
of enqueued ticks, i.e. the writer is assumed to drain it so `put_nowait`
never hits `QueueFull`. -/
structure TickPipe where
  buf : List ℚ
  queue : List ℚ
deriving DecidableEq

/-- The class constant `TICK_BUFFER_SIZE = 6`. -/
def tickBufferSize : ℕ := 6

/-- Embedding of `add_tick_to_buffer` (fast_loop.py lines 301-314): when the
ring is full, the oldest tick is enqueued unless its `net_edge_bps` rounds to
one decimal equal to the second-oldest's (the dedup rule); the new tick is
then appended, the `deque(maxlen=6)` dropping the oldest. -/
def addTick (s : TickPipe) (x : ℚ) : TickPipe :=
  if tickBufferSize ≤ s.buf.length then
    match s.buf with
    | [] => { buf := [x], queue := s.queue }
    | o :: rest =>
      let shouldPersist : Bool :=
        match rest.head? with
        | some snd => decide (¬ round1 o = round1 snd)
        | none => true
      { buf := rest ++ [x]
        queue := if shouldPersist then s.queue ++ [o] else s.queue }
  else { buf := s.buf ++ [x], queue := s.queue }

/-- The pipeline state after feeding a stream of ticks into an empty ring. -/
def processTicks (ts : List ℚ) : TickPipe := ts.foldl addTick ⟨[], []⟩

/-- Embedding of `_flush_tick_buffer` (lines 1011-1018), as run on shutdown
by `_run_with_cleanup`: the residual ring contents are appended to the queue
in FIFO order with no dedup check.  The result is the full stream of ticks
that ever lefts the ring for the persistence queue. -/
def flushAll (s : TickPipe) : List ℚ := s.queue ++ s.buf

/-- Dedup relation: two ticks differ in `net_edge_bps` rounded to 1 dp. -/
def RDiff (a b : ℚ) : Prop := ¬ round1 a = round1 b

/-- Invariant of the tick pipeline: the enqueued stream has pairwise-distinct
consecutive rounded edges, and once anything is enqueued the ring stays full
and its oldest entry rounds differently from the last enqueued tick. -/
def PipeInv (s : TickPipe) : Prop :=
  List.Chain' RDiff s.queue ∧
  (s.queue ≠ [] →
    tickBufferSize ≤ s.buf.length ∧
    ∃ l h, s.queue.getLast? = some l ∧ s.buf.head? = some h ∧ RDiff l h)

/-- The empty pipeline satisfies the invariant. -/
lemma pipeInv_init : PipeInv ⟨[], []⟩ :=
  ⟨List.chain'_nil, fun hq => absurd rfl hq⟩

/-- The invariant is preserved by `add_tick_to_buffer`. -/
lemma addTick_inv (s : TickPipe) (x : ℚ) (h : PipeInv s) : PipeInv (addTick s x) := by
  obtain ⟨buf, queue⟩ := s
  obtain ⟨hchain, hrest⟩ := h
  unfold addTick
  by_cases hlen : tickBufferSize ≤ buf.length
  · simp only at hlen ⊢
    rw [if_pos hlen]
    cases buf with
    | nil => simp [tickBufferSize] at hlen
    | cons o rest =>
      obtain ⟨snd, rest', hr⟩ : ∃ snd rest', rest = snd :: rest' := by
        cases rest with
        | nil => simp [tickBufferSize] at hlen
        | cons a t => exact ⟨a, t, rfl⟩
      subst hr
      simp only [List.head?_cons]
      have hlen' : tickBufferSize ≤ ((snd :: rest') ++ [x]).length := by
        simp only [List.length_cons, List.length_append] at hlen ⊢
        omega
      by_cases hdup : round1 o = round1 snd
      · rw [if_neg (by simp [hdup])]
        refine ⟨hchain, fun hq => ?_⟩
        obtain ⟨-, l, h', hl, hh, hrd⟩ := hrest hq
        refine ⟨hlen', l, snd, hl, by simp, ?_⟩
        rw [List.head?_cons, Option.some_inj] at hh
        subst hh
        unfold RDiff at *
        rw [← hdup]
        exact hrd
      · rw [if_pos (by simp [hdup])]
        constructor
        · rw [List.chain'_append]
          refine ⟨hchain, List.chain'_singleton o, fun a ha b hb => ?_⟩
          simp only [List.head?_cons, Option.mem_some_iff] at hb
          subst hb
          have hq : queue ≠ [] := by
            intro hq0
            rw [hq0] at ha
            simp at ha
          obtain ⟨-, l, h', hl, hh, hrd⟩ := hrest hq
          rw [Option.mem_def, hl, Option.some_inj] at ha
          subst ha
          rw [List.head?_cons, Option.some_inj] at hh
          subst hh
          exact hrd
        · intro _
          refine ⟨hlen', o, snd, ?_, by simp, hdup⟩
          rw [List.getLast?_concat]
  · simp only at hlen ⊢
    rw [if_neg hlen]
    refine ⟨hchain, fun hq => absurd (hrest hq).1 hlen⟩

/-- The invariant holds after processing any prefix of the tick stream. -/
lemma foldl_addTick_inv (ts : List ℚ) :
    ∀ s : TickPipe, PipeInv s → PipeInv (ts.foldl addTick s) := by
  induction ts with
  | nil => exact fun s hs => hs
  | cons t ts ih => exact fun s hs => ih (addTick s t) (addTick_inv s t hs)

/-- C3 (amended): along the normal eviction path — ticks leaving the full
ring through the dedup rule of `add_tick_to_buffer`, with the bounded queue
never overflowing — every two consecutively enqueued ticks have different
`net_edge_bps` rounded to one decimal.  The dedup rule compares the candidate
to its in-ring successor, which is exactly the next tick that can be
enqueued, so equal rounded values can never leave the ring back to back. -/
theorem c3_dedup_chain (ts : List ℚ) :
    List.Chain' (fun a b => ¬ round1 a = round1 b) (processTicks ts).queue :=
  (foldl_addTick_inv ts ⟨[], []⟩ pipeInv_init).1

/-- C3 counterexample: the claim quantifies over all ticks that leave the
ring for the persistence queue, and the shutdown flush
(`_flush_tick_buffer`) enqueues the residual ring contents with no dedup
check.  Feeding two ticks with equal `net_edge_bps` (10.0, 10.0) and stopping
the loop persists both consecutively. -/
theorem c3_counterexample :
    ¬ List.Chain' (fun a b => ¬ round1 a = round1 b)
        (flushAll (processTicks [10, 10])) := by
  have he : flushAll (processTicks [10, 10]) = [10, 10] := rfl
  intro hch
  rw [he] at hch
  exact (List.chain'_cons.mp hch).1 rfl

/-- The three public USD/ZAR providers of `FXRateService._fetch_live_rate`
(fx_rates.py lines 38-55), in the fixed probe order of the `apis` list:
exchangerate-api, frankfurter, open.er-api (the `_fetch_from_fixer_free`
helper). -/
inductive FxProvider where
  | exchangerateApi
  | frankfurter
  | openErApi
deriving DecidableEq

/-- The fixed probe order of the `apis` list. -/
def fxProviderOrder : List FxProvider :=
  [FxProvider.exchangerateApi, FxProvider.frankfurter, FxProvider.openErApi]

/-- Acceptance test applied to one provider's response: `none` models an
exception or a non-200 status; a parsed value is accepted iff it is truthy
and inside the sanity band (`if rate and rate > 10 and rate < 30`). -/
def acceptRate : Option ℚ → Option ℚ
  | some r => if ¬ r = 0 ∧ 10 < r ∧ r < 30 then some r else none
  | none => none

/-- First accepted response of a probe sequence (the `for` loop of
`_fetch_live_rate` with its `continue` on failure). -/
def firstAccepted : List (Option ℚ) → Option ℚ
  | [] => none
  | p :: rest =>
    match acceptRate p with
    | some r => some r
    | none => firstAccepted rest

/-- Embedding of `_fetch_live_rate`: probe the three providers in order,
return the first in-band rate, else `none`. -/
def fetchLiveRate (resp : FxProvider → Option ℚ) : Option ℚ :=
  firstAccepted (fxProviderOrder.map resp)

/-- Cache state of `FXRateService` for USD/ZAR: `_usd_zar_rate` and
`_last_fetch` (a timestamp in seconds; `none` models Python `None`). -/
structure FxCache where
  usdZar : Option ℚ
  lastFetch : Option ℚ
deriving DecidableEq

/-- The `_cache_duration = timedelta(minutes=5)`, in seconds. -/
def fxCacheDuration : ℚ := 300

/-- The `_fallback_rate = 17.0`. -/
def fxFallbackRate : ℚ := 17

/-- Freshness test of `get_usd_zar_rate` lines 21-23: both cache fields
truthy (a stored rate is a nonzero float, a stored timestamp is always
truthy) and the age strictly below the cache duration. -/
def cacheFresh (c : FxCache) (now : ℚ) : Option ℚ :=
  match c.usdZar, c.lastFetch with
  | some r, some tf => if ¬ r = 0 ∧ now - tf < fxCacheDuration then some r else none
  | _, _ => none

/-- Embedding of `get_usd_zar_rate` (fx_rates.py lines 20-36): fresh cache
wins; else the first in-band provider rate wins and refreshes the cache; else
a truthy stale cache; else the hard-coded fallback. -/
def getUsdZarRate (c : FxCache) (now : ℚ) (resp : FxProvider → Option ℚ) :
    ℚ × FxCache :=
  match cacheFresh c now with
  | some r => (r, c)
  | none =>
    match fetchLiveRate resp with
    | some r => (r, { usdZar := some r, lastFetch := some now })
    | none =>
      match c.usdZar with
      | some r => if ¬ r = 0 then (r, c) else (fxFallbackRate, c)
      | none => (fxFallbackRate, c)

/-- C7: full characterisation of `get_usd_zar_rate`.
(1) A cache younger than 5 minutes is returned unchanged, whatever every
provider would answer (no provider is contacted).
(2) With no fresh cache, a successful probe returns its rate and refreshes
the cache to `(rate, now)`.
(3)-(5) The probe takes the first in-band response in the fixed order
exchangerate-api, frankfurter, open.er-api; (6) it fails only if all three
fail.  (7) A parsed response is accepted exactly when `10 < r < 30`.
(8) With no fresh cache and a failed probe, a stale nonzero cached rate is
returned with the cache unchanged; (9) with an empty cache the hard-coded
fallback 17.0 is returned. -/
theorem c7_fx_rate :
    (∀ (c : FxCache) (now : ℚ) (resp : FxProvider → Option ℚ) (r tf : ℚ),
      c.usdZar = some r → ¬ r = 0 → c.lastFetch = some tf →
      now - tf < fxCacheDuration → getUsdZarRate c now resp = (r, c)) ∧
    (∀ (c : FxCache) (now : ℚ) (resp : FxProvider → Option ℚ) (r : ℚ),
      cacheFresh c now = none → fetchLiveRate resp = some r →
      getUsdZarRate c now resp = (r, ⟨some r, some now⟩)) ∧
    (∀ (resp : FxProvider → Option ℚ) (r : ℚ),
      acceptRate (resp FxProvider.exchangerateApi) = some r →
      fetchLiveRate resp = some r) ∧
    (∀ (resp : FxProvider → Option ℚ) (r : ℚ),
      acceptRate (resp FxProvider.exchangerateApi) = none →
      acceptRate (resp FxProvider.frankfurter) = some r →
      fetchLiveRate resp = some r) ∧
    (∀ (resp : FxProvider → Option ℚ) (r : ℚ),
      acceptRate (resp FxProvider.exchangerateApi) = none →
      acceptRate (resp FxProvider.frankfurter) = none →
      acceptRate (resp FxProvider.openErApi) = some r →
      fetchLiveRate resp = some r) ∧
    (∀ resp : FxProvider → Option ℚ,
      acceptRate (resp FxProvider.exchangerateApi) = none →
      acceptRate (resp FxProvider.frankfurter) = none →
      acceptRate (resp FxProvider.openErApi) = none →
      fetchLiveRate resp = none) ∧
    (∀ r : ℚ, acceptRate (some r) = some r ↔ (10 < r ∧ r < 30)) ∧
    (∀ (c : FxCache) (now : ℚ) (resp : FxProvider → Option ℚ) (r : ℚ),
      cacheFresh c now = none → fetchLiveRate resp = none →
      c.usdZar = some r → ¬ r = 0 → getUsdZarRate c now resp = (r, c)) ∧
    (∀ (c : FxCache) (now : ℚ) (resp : FxProvider → Option ℚ),
      cacheFresh c now = none → fetchLiveRate resp = none →
      c.usdZar = none → getUsdZarRate c now resp = (fxFallbackRate, c)) := by
  refine ⟨?_, ?_, ?_, ?_, ?_, ?_, ?_, ?_, ?_⟩
  · intro c now resp r tf hz hr0 htf hage
    have hfresh : cacheFresh c now = some r := by
      unfold cacheFresh
      rw [hz, htf]
      exact if_pos ⟨hr0, hage⟩
    unfold getUsdZarRate
    rw [hfresh]
  · intro c now resp r hfresh hfetch
    unfold getUsdZarRate
    rw [hfresh, hfetch]
  · intro resp r h1
    unfold fetchLiveRate fxProviderOrder
    simp only [List.map_cons, List.map_nil, firstAccepted, h1]
  · intro resp r h1 h2
    unfold fetchLiveRate fxProviderOrder
    simp only [List.map_cons, List.map_nil, firstAccepted, h1, h2]
  · intro resp r h1 h2 h3
    unfold fetchLiveRate fxProviderOrder
    simp only [List.map_cons, List.map_nil, firstAccepted, h1, h2, h3]
  · intro resp h1 h2 h3
    unfold fetchLiveRate fxProviderOrder
    simp only [List.map_cons, List.map_nil, firstAccepted, h1, h2, h3]
  · intro r
    unfold acceptRate
    by_cases hb : ¬ r = 0 ∧ 10 < r ∧ r < 30
    · exact ⟨fun _ => hb.2, fun _ => if_pos hb⟩
    · constructor
      · intro h
        have h' : (if ¬ r = 0 ∧ 10 < r ∧ r < 30 then some r else (none : Option ℚ)) = some r := h
        rw [if_neg hb] at h'
        exact absurd h' (by simp)
      · intro hband
        refine absurd ⟨fun h0 => ?_, hband⟩ hb
        rw [h0] at hband
        norm_num at hband
  · intro c now resp r hfresh hfetch hz hr0
    unfold getUsdZarRate
    rw [hfresh, hfetch, hz]
    exact if_pos hr0
  · intro c now resp hfresh hfetch hz
    unfold getUsdZarRate
    rw [hfresh, hfetch, hz]

/-- Witness for C7: a fresh cache (rate 18, fetched at t=0, queried at
t=100 s) is returned unchanged even when every provider fails. -/
theorem c7_fx_rate_witness :
    getUsdZarRate ⟨some 18, some 0⟩ 100 (fun _ => none) = (18, ⟨some 18, some 0⟩) :=
  c7_fx_rate.1 ⟨some 18, some 0⟩ 100 (fun _ => none) 18 0 rfl
    (by norm_num) rfl (by norm_num [fxCacheDuration])

/-- Outcome of one leg of the live concurrent order pair, as seen after
`asyncio.gather(..., return_exceptions=True)`: either a raised exception or
a structured `OrderResult` with its `success` flag and reported fill price
(which `execute_hedged_trade_parallel` never reads). -/
inductive LegOutcome where
  | exc
  | res (success : Bool) (filledPrice : ℚ)
deriving DecidableEq

/-- A market order dispatched to a venue (client, side, pair, amount —
ZAR counter-amount for a Luno buy, BTC base-amount otherwise). -/
structure LiveOrder where
  exchange : String
  side : String
  pair : String
  amount : ℚ
deriving DecidableEq

/-- The two legs dispatched concurrently by the live branch of
`execute_hedged_trade_parallel` (fast_loop.py lines 795-800), in source
order (buy coroutine first). -/
def liveOrders (si : SpreadInfo) (btc : ℚ) : List LiveOrder :=
  if si.direction = Direction.lunoToBinance then
    [⟨"luno", "buy", "XBTZAR", btc * si.buyPrice⟩, ⟨"binance", "sell", "BTCUSDT", btc⟩]
  else
    [⟨"binance", "buy", "BTCUSDT", btc⟩, ⟨"luno", "sell", "XBTZAR", btc⟩]

/-- A leg failed: it raised, or returned with `success = false`. -/
def legFailed : LegOutcome → Bool
  | LegOutcome.exc => true
  | LegOutcome.res s _ => !s

/-- Live branch of `execute_hedged_trade_parallel` (lines 791-847): dispatch
the two legs, and if both succeed persist a `Trade` with
`status = "completed"` whose profit is computed from the *pre-trade*
`spread_info` prices — `btc·(sell_price − buy_price)` minus
`LUNO_TRADING_FEE` on the buy notional and `BINANCE_TRADING_FEE` on the sell
notional (lines 815-817), the reported fill prices being ignored.  On any
exception or non-success, return no trade.  The second component is the
complete list of orders ever dispatched. -/
def executeLive (si : SpreadInfo) (btc lunoFee binanceFee : ℚ)
    (buyResult sellResult : LegOutcome) : Option TradeRec × List LiveOrder :=
  let orders := liveOrders si btc
  match buyResult, sellResult with
  | LegOutcome.exc, _ => (none, orders)
  | _, LegOutcome.exc => (none, orders)
  | LegOutcome.res bs _, LegOutcome.res ss _ =>
    if bs && ss then
      let profitUsd := btc * (si.sellPrice - si.buyPrice)
        - btc * si.buyPrice * lunoFee - btc * si.sellPrice * binanceFee
      (some { direction := si.direction
              btcAmount := btc
              buyPrice := si.buyPrice
              sellPrice := si.sellPrice
              spreadPercent := si.spreadPercent
              profitUsd := profitUsd
              profitZar := profitUsd * si.usdtZar
              buyExchange := si.buyExchange
              sellExchange := si.sellExchange
              status := "completed" }, orders)
    else (none, orders)

/-- C8 (amended): in live mode with both legs succeeding, the persisted
trade has `status = "completed"` and its recorded profit is computed from the
pre-trade `spread_info` sell and buy prices — with the Luno fee rate applied
to the buy notional and the Binance fee rate to the sell notional regardless
of direction — not from the fill prices the legs report, which are ignored. -/
theorem c8_live_profit (si : SpreadInfo) (btc lunoFee binanceFee bp sp : ℚ) :
    executeLive si btc lunoFee binanceFee
        (LegOutcome.res true bp) (LegOutcome.res true sp) =
      (some { direction := si.direction
              btcAmount := btc
              buyPrice := si.buyPrice
              sellPrice := si.sellPrice
              spreadPercent := si.spreadPercent
              profitUsd := btc * (si.sellPrice - si.buyPrice)
                - btc * si.buyPrice * lunoFee - btc * si.sellPrice * binanceFee
              profitZar := (btc * (si.sellPrice - si.buyPrice)
                - btc * si.buyPrice * lunoFee - btc * si.sellPrice * binanceFee) * si.usdtZar
              buyExchange := si.buyExchange
              sellExchange := si.sellExchange
              status := "completed" }, liveOrders si btc) := rfl

/-- Spread dict for the C8 counterexample: expected buy 10, sell 20. -/
def c8Si : SpreadInfo :=
  ⟨Direction.lunoToBinance, 1, 100, 100, "luno", "binance", 10, 20, 1000, 60, 17⟩

/-- C8 counterexample: both legs succeed and each reports a fill price of 15,
so the claim's profit — reported sell minus reported buy times the amount,
minus per-leg fees (all fees zero here) — is `1·(15 − 15) − 0 − 0 = 0`; the
code instead records `profit_usd = 10`, computed from the pre-trade
`spread_info` prices 20 and 10.  The trade does carry `status("completed")`. -/
theorem c8_counterexample :
    (executeLive c8Si 1 0 0 (LegOutcome.res true 15) (LegOutcome.res true 15)).1.map
        (fun tr => (tr.profitUsd, tr.status)) = some (10, "completed") ∧
    ¬ (10 : ℚ) = 1 * (15 - 15) - 1 * 15 * 0 - 1 * 15 * 0 := by
  constructor
  · norm_num [executeLive, liveOrders, c8Si]
  · norm_num

/-- C9: if either live leg raises or returns non-success, no trade is
returned (hence no `Trade` row is persisted) and the only orders ever
dispatched are the two initial legs — no unwind order for the sibling leg is
placed. -/
theorem c9_no_unwind (si : SpreadInfo) (btc lunoFee binanceFee : ℚ)
    (buyResult sellResult : LegOutcome)
    (h : legFailed buyResult = true ∨ legFailed sellResult = true) :
    (executeLive si btc lunoFee binanceFee buyResult sellResult).1 = none ∧
    (executeLive si btc lunoFee binanceFee buyResult sellResult).2 =
      liveOrders si btc ∧
    (executeLive si btc lunoFee binanceFee buyResult sellResult).2.length = 2 := by
  have hlen : (liveOrders si btc).length = 2 := by
    unfold liveOrders
    split <;> rfl
  cases buyResult with
  | exc =>
    cases sellResult with
    | exc => exact ⟨rfl, rfl, hlen⟩
    | res ss sp => exact ⟨rfl, rfl, hlen⟩
  | res bs bp =>
    cases sellResult with
    | exc => exact ⟨rfl, rfl, hlen⟩
    | res ss sp =>
      cases bs with
      | false => exact ⟨rfl, rfl, hlen⟩
      | true =>
        cases ss with
        | false => exact ⟨rfl, rfl, hlen⟩
        | true => rcases h with h | h <;> simp [legFailed] at h

/-- Spread dict for the C9 witness. -/
def c9Si : SpreadInfo :=
  ⟨Direction.lunoToBinance, 1, 100, 100, "luno", "binance", 10, 20, 1000, 60, 17⟩

/-- Witness for C9: the buy leg raises, the sell leg reports success — no
trade, and exactly the two initial orders were dispatched. -/
theorem c9_no_unwind_witness :
    (executeLive c9Si 1 0 0 LegOutcome.exc (LegOutcome.res true 15)).1 = none ∧
    (executeLive c9Si 1 0 0 LegOutcome.exc (LegOutcome.res true 15)).2 =
      liveOrders c9Si 1 ∧
    (executeLive c9Si 1 0 0 LegOutcome.exc (LegOutcome.res true 15)).2.length = 2 :=
  c9_no_unwind c9Si 1 0 0 LegOutcome.exc (LegOutcome.res true 15) (Or.inl rfl)

end CryptArb
